import Mathlib

/-!
# Verification of the qView `ActionManager` (src/actionmanager.cpp)

A shallow embedding of the recents-list maintenance, action cloning and
action dispatch logic of `ActionManager`, together with proofs (and
refutations) of the specified properties.

Conventions of the embedding:

* `QString` is modelled as `String`; file-system existence
  (`QFileInfo::exists`) is an explicit function parameter
  `ex : String → Bool` on the file path.
* `QList<RecentFile>` is a `List RecentFile`; `QList::value(i)` is
  `List.getD i default` (a default-constructed value out of range),
  `QList::removeAt(i)` is `List.eraseIdx i`, `QList::removeLast` is
  `List.dropLast`, `QList::prepend` is `List.cons`.
* The C++ `for` loops that mutate the list they index are embedded as
  recursions on the same loop counters, so the index-shifting behaviour
  of `removeAt` during iteration is preserved exactly.
-/

namespace QView

theorem length_eraseIdx_le {α : Type} (l : List α) (i : Nat) :
    (l.eraseIdx i).length ≤ l.length := by
  rw [List.length_eraseIdx]
  split <;> omega

/-- `ActionManager::RecentFile`: a (display name, path) pair.  Modelled from
the spec: the struct and its `operator==` live in `actionmanager.h`, which is
outside the sources at hand; the spec describes the list as "(display name,
path) pairs ... deduplicated by equality", so equality compares both fields. -/
structure RecentFile where
  fileName : String
  filePath : String
deriving DecidableEq, Repr, Inhabited

/-- The inner `for (int i2 = 0; ...)` loop of `ActionManager::auditRecentsList`
(lines 404–413): starting at counter `i2`, remove every element equal to
`recent` at a position other than `i`, with the counter incremented after a
removal exactly as in the C++ loop (so the element that shifts into the
removed slot is skipped). -/
def auditDedupPass (recent : RecentFile) (i : Nat) (l : List RecentFile) (i2 : Nat) :
    List RecentFile :=
  if h1 : i2 < l.length then
    if i = i2 then
      auditDedupPass recent i l (i2 + 1)
    else if recent = l.getD i2 default then
      auditDedupPass recent i (l.eraseIdx i2) (i2 + 1)
    else
      auditDedupPass recent i l (i2 + 1)
  else
    l
termination_by l.length - i2
decreasing_by
  · omega
  · simp [List.length_eraseIdx, h1]; omega
  · omega

theorem auditDedupPass_length_le (recent : RecentFile) (i : Nat) (l : List RecentFile)
    (i2 : Nat) : (auditDedupPass recent i l i2).length ≤ l.length := by
  induction l, i2 using auditDedupPass.induct recent i with
  | case1 l h ih =>
      rw [auditDedupPass, dif_pos h, if_pos rfl]
      exact ih
  | case2 l i2 h1 h2 h3 ih =>
      rw [auditDedupPass, dif_pos h1, if_neg h2, if_pos h3]
      exact le_trans ih (length_eraseIdx_le l i2)
  | case3 l i2 h1 h2 h3 ih =>
      rw [auditDedupPass, dif_pos h1, if_neg h2, if_neg h3]
      exact ih
  | case4 l i2 h1 =>
      rw [auditDedupPass, dif_neg h1]

/-- The existence check of one outer-loop step of `auditRecentsList`
(lines 396–401): drop the element at `i` when its path does not exist. -/
def auditExistsStep (ex : String → Bool) (l : List RecentFile) (i : Nat) :
    List RecentFile :=
  if ex (l.getD i default).filePath then l else l.eraseIdx i

theorem auditExistsStep_length_le (ex : String → Bool) (l : List RecentFile) (i : Nat) :
    (auditExistsStep ex l i).length ≤ l.length := by
  rw [auditExistsStep]
  split
  · exact Nat.le_refl _
  · exact length_eraseIdx_le l i

/-- The outer `for (int i = 0; ...)` loop of `ActionManager::auditRecentsList`
(lines 394–414): at counter `i`, read the element there, drop it when its
path does not exist, then run the duplicate pass for it, and continue with
`i + 1`. -/
def auditScan (ex : String → Bool) (l : List RecentFile) (i : Nat) : List RecentFile :=
  if h : i < l.length then
    auditScan ex (auditDedupPass (l.getD i default) i (auditExistsStep ex l i) 0) (i + 1)
  else
    l
termination_by l.length - i
decreasing_by
  have h2 := auditDedupPass_length_le (l.getD i default) i (auditExistsStep ex l i) 0
  have h3 := auditExistsStep_length_le ex l i
  omega

theorem auditScan_length_le (ex : String → Bool) (l : List RecentFile) (i : Nat) :
    (auditScan ex l i).length ≤ l.length := by
  induction l, i using auditScan.induct ex with
  | case1 l i h ih =>
      rw [auditScan, dif_pos h]
      exact le_trans ih (le_trans (auditDedupPass_length_le _ _ _ _)
        (auditExistsStep_length_le ex l i))
  | case2 l i h =>
      rw [auditScan, dif_neg h]

/-- The trailing `while (recentsList.size() > recentsListMaxLength)
recentsList.removeLast();` loop of `auditRecentsList` (lines 416–419). -/
def trimToMaxLength (maxLen : Nat) (l : List RecentFile) : List RecentFile :=
  if maxLen < l.length then trimToMaxLength maxLen l.dropLast else l
termination_by l.length
decreasing_by
  simp only [List.length_dropLast]
  omega

/-- `ActionManager::auditRecentsList` (lines 385–422) acting on the list:
clear when saving recents is disabled, then the existence/duplicate scan,
then the eviction loop. -/
def auditRecentsList (ex : String → Bool) (enabled : Bool) (maxLen : Nat)
    (l : List RecentFile) : List RecentFile :=
  trimToMaxLength maxLen (auditScan ex (if enabled then l else []) 0)

/-- `recentsListMaxLength = 10` assigned in the `ActionManager` constructor
(line 12). -/
def initialRecentsListMaxLength : Nat := 10

/-- `recentsSaveTimer->setInterval(500)` in the constructor (line 19). -/
def recentsSaveTimerIntervalMs : Nat := 500

/-- `recentsSaveTimer->setSingleShot(true)` in the constructor (line 18). -/
def recentsSaveTimerSingleShot : Bool := true

/-- The user-visible state of one recent-slot `QAction` (the actions created
in `buildRecentsMenu`, keyed `"recent0"` … `"recent9"`): visibility, text and
the file the icon was derived from. -/
structure SlotAction where
  visible : Bool
  text : String
  iconSource : String
deriving DecidableEq, Repr, Inhabited

/-- The update `ActionManager::updateRecentsMenu` (lines 430–464) applies to
one clone of the slot action of index `i`: within the bounds of the recents
list the slot becomes visible with the entry's file name and an icon derived
from its path, otherwise it is hidden with text `"Empty"` (icon untouched).
`iconFor` abstracts the platform mime/file icon lookup. -/
def updateRecentsSlot (l : List RecentFile) (iconFor : String → String) (i : Nat)
    (a : SlotAction) : SlotAction :=
  if i < l.length then
    { visible := true
      text := (l.getD i default).fileName
      iconSource := iconFor (l.getD i default).filePath }
  else
    { visible := false, text := "Empty", iconSource := a.iconSource }

/-- `ActionManager::updateRecentsMenu` (lines 430–464) acting on the clone
library restricted to the recent-slot actions, modelled as an association
list from slot index to action state (`actionCloneLibrary.values("recent" +
i)` may hold several clones per index).  Slots of index `≥ maxLen` are not
visited by the loop. -/
def updateRecentsMenu (maxLen : Nat) (l : List RecentFile) (iconFor : String → String)
    (slots : List (Nat × SlotAction)) : List (Nat × SlotAction) :=
  slots.map fun p => if p.1 < maxLen then (p.1, updateRecentsSlot l iconFor p.1 p.2) else p

/-- The `ActionManager` state touched by the recents-list code paths:
the in-memory list, the `"saverecents"` flag, the single-shot save timer,
the persisted `"recentFiles"` settings value, the recent-slot action clones,
and a counter of `recentsMenuUpdated` emissions.  The conversions
`recentsListToVariantList` / `variantListToRecentsList` used by
load/save are inverse serialisations and are embedded as the identity,
so the settings value is held as a `List RecentFile` directly. -/
structure ActionManagerState where
  recentsList : List RecentFile
  isSaveRecentsEnabled : Bool
  recentsListMaxLength : Nat
  timerActive : Bool
  storedRecentFiles : List RecentFile
  recentSlots : List (Nat × SlotAction)
  recentsMenuVisible : Bool
  menuUpdateCount : Nat

namespace ActionManagerState

/-- `ActionManager::updateRecentsMenu` as a state transformer: rewrite the
recent-slot clones from the current list and emit `recentsMenuUpdated`
(line 463). -/
def updateMenu (iconFor : String → String) (s : ActionManagerState) :
    ActionManagerState :=
  { s with
    recentSlots := updateRecentsMenu s.recentsListMaxLength s.recentsList iconFor s.recentSlots
    menuUpdateCount := s.menuUpdateCount + 1 }

/-- `ActionManager::auditRecentsList` as a state transformer: rewrite the
list, then run `updateRecentsMenu` (line 421). -/
def audit (ex : String → Bool) (iconFor : String → String) (s : ActionManagerState) :
    ActionManagerState :=
  updateMenu iconFor
    { s with
      recentsList := auditRecentsList ex s.isSaveRecentsEnabled s.recentsListMaxLength
        s.recentsList }

/-- `ActionManager::addFileToRecentsList` (lines 378–383): prepend the
(fileName, filePath) pair, audit, then start the save timer.  The settings
store is not touched. -/
def addFileToRecentsList (ex : String → Bool) (iconFor : String → String)
    (file : RecentFile) (s : ActionManagerState) : ActionManagerState :=
  let s1 := audit ex iconFor { s with recentsList := file :: s.recentsList }
  { s1 with timerActive := true }

/-- `ActionManager::saveRecentsList` (lines 365–375): audit, then write the
current list to the `"recentFiles"` settings value. -/
def saveRecentsList (ex : String → Bool) (iconFor : String → String)
    (s : ActionManagerState) : ActionManagerState :=
  let s1 := audit ex iconFor s
  { s1 with storedRecentFiles := s1.recentsList }

/-- The save timer firing: a single-shot timer deactivates, then its
`timeout` slot `saveRecentsList` runs (constructor line 20). -/
def saveTimerFired (ex : String → Bool) (iconFor : String → String)
    (s : ActionManagerState) : ActionManagerState :=
  saveRecentsList ex iconFor { s with timerActive := false }

/-- `ActionManager::loadRecentsList` (lines 350–363): a no-op while the save
timer is running, otherwise replace the list by the stored settings value
and audit. -/
def loadRecentsList (ex : String → Bool) (iconFor : String → String)
    (s : ActionManagerState) : ActionManagerState :=
  if s.timerActive then s
  else audit ex iconFor { s with recentsList := s.storedRecentFiles }

/-- `ActionManager::clearRecentsList` (lines 424–428): clear the list, then
save immediately. -/
def clearRecentsList (ex : String → Bool) (iconFor : String → String)
    (s : ActionManagerState) : ActionManagerState :=
  saveRecentsList ex iconFor { s with recentsList := [] }

/-- `ActionManager::settingsUpdated` (lines 40–51): refresh the
`"saverecents"` flag (`newEnabled` is the value read from the settings
manager), show or hide the recents menus accordingly, and clear the list
when saving was disabled. -/
def settingsUpdated (ex : String → Bool) (iconFor : String → String)
    (newEnabled : Bool) (s : ActionManagerState) : ActionManagerState :=
  let s1 := { s with isSaveRecentsEnabled := newEnabled, recentsMenuVisible := newEnabled }
  if newEnabled then s1 else clearRecentsList ex iconFor s1

end ActionManagerState

/-- The fields of a `QAction` that `ActionManager::cloneAction` copies,
plus two representative fields (`checkable`, `checked`) that a freshly
constructed `QAction` leaves at their defaults and `cloneAction` does not
copy. -/
structure QVAction where
  icon : String
  dataList : List String
  text : String
  menuRole : Nat
  enabled : Bool
  shortcuts : List String
  visible : Bool
  checkable : Bool := false
  checked : Bool := false
deriving DecidableEq, Repr

/-- A fresh `new QAction()` with the seven cloned fields assigned
(`cloneAction`, lines 57–64); `checkable`/`checked` keep their constructor
defaults. -/
def freshActionCopy (a : QVAction) : QVAction :=
  { icon := a.icon
    dataList := a.dataList
    text := a.text
    menuRole := a.menuRole
    enabled := a.enabled
    shortcuts := a.shortcuts
    visible := a.visible }

/-- `ActionManager::getAction` (lines 72–78): `actionLibrary.value(key)`
with `nullptr` as `none`, on the action library modelled as an association
list. -/
def getAction (lib : List (String × QVAction)) (key : String) : Option QVAction :=
  match lib with
  | [] => none
  | (k, a) :: rest => if k = key then some a else getAction rest key

/-- `ActionManager::cloneAction` (lines 53–70): look the key up in the
action library; on a hit build a fresh action copying icon, data, text,
menu role, enabled state, shortcuts and visibility, record it in the clone
library under the key, and return it; otherwise return `nullptr` and leave
the clone library unchanged. -/
def cloneAction (lib : List (String × QVAction)) (clones : List (String × QVAction))
    (key : String) : Option QVAction × List (String × QVAction) :=
  match getAction lib key with
  | some action => (some (freshActionCopy action), (key, freshActionCopy action) :: clones)
  | none => (none, clones)

/-- The `windowlessActions` list of `ActionManager::actionTriggered(QAction*)`
(lines 514–517): `{"newwindow", "quit", "clearrecents", "open"}`, extended on
macOS by `"about"`, `"welcome"`, `"options"`. -/
def windowlessActions (macOS : Bool) : List String :=
  ["newwindow", "quit", "clearrecents", "open"] ++
    (if macOS then ["about", "welcome", "options"] else [])

/-- `QString::startsWith` on character lists. -/
def listBeginsWith : List Char → List Char → Bool
  | [], _ => true
  | _ :: _, [] => false
  | c :: cs, d :: ds => c = d && listBeginsWith cs ds

/-- `key.startsWith(pre)` for `QString`s. -/
def strBeginsWith (key pre : String) : Bool :=
  listBeginsWith pre.data key.data

/-- The early-returning `for` loop over `windowlessActions` (lines 518–525):
`true` exactly when the loop hits `key == actionName` and returns. -/
def windowlessLoopHits (keys : List String) (key : String) : Bool :=
  match keys with
  | [] => false
  | k :: rest => if key = k then true else windowlessLoopHits rest key

/-- The decision taken by the one-argument `ActionManager::actionTriggered`
(lines 509–535). -/
inductive DispatchDecision where
  | withNullWindow
  | requestWindow (shouldBeEmpty : Bool)
deriving DecidableEq, Repr

/-- The one-argument `ActionManager::actionTriggered` (lines 509–535): for a
windowless key, call the two-argument overload with `nullptr`; otherwise ask
the application for a main window, requiring a window with no image open
exactly when the key starts with `"recent"` or is `"openurl"`. -/
def actionTriggeredDispatch (macOS : Bool) (key : String) : DispatchDecision :=
  if windowlessLoopHits (windowlessActions macOS) key then
    DispatchDecision.withNullWindow
  else
    DispatchDecision.requestWindow (strBeginsWith key "recent" || key == "openurl")

/-- The calls the two-argument `ActionManager::actionTriggered`
(lines 537–652) can make on the application, the action manager, or the
relevant window. -/
inductive AMCall where
  | winClose
  | appQuit
  | appNewWindow
  | appPickFile
  | closeActiveWindow
  | closeAllWindows
  | appOpenOptionsDialog
  | appOpenAboutDialog
  | appOpenWelcomeDialog
  | amClearRecentsList
  | winOpenRecent (slot : Int)
  | winShowOpenWithDialog
  | winOpenWith
  | winPickUrl
  | winOpenContainingFolder
  | winShowFileInfo
  | winAskDeleteFile
  | winUndoDelete
  | winCopy
  | winPaste
  | winRename
  | winZoomIn
  | winZoomOut
  | winResetZoom
  | winOriginalSize
  | winRotateRight
  | winRotateLeft
  | winMirror
  | winFlip
  | winToggleFullScreen
  | winFirstFile
  | winPreviousFile
  | winNextFile
  | winLastFile
  | winSaveFrameAs
  | winPause
  | winNextFrame
  | winDecreaseSpeed
  | winResetSpeed
  | winIncreaseSpeed
  | winToggleSlideshow
deriving DecidableEq, Repr

/-- `QChar::digitValue`: the numeric digit value, `-1` for a non-digit. -/
def charDigitValue (c : Char) : Int :=
  if c.isDigit then (c.toNat : Int) - 48 else -1

/-- The first `else if` chain of the two-argument `actionTriggered`
(lines 542–580): the conditions that also run with a null window.  The
duplicated `quit` / `newwindow` / `open` branches of the source are dead
in an `else if` chain and collapse away. -/
def dispatchPhase1 (key : String) (windowPresent : Bool) : List AMCall :=
  if key = "quit" then
    (if windowPresent then [AMCall.winClose] else []) ++ [AMCall.appQuit]
  else if key = "newwindow" then [AMCall.appNewWindow]
  else if key = "open" then [AMCall.appPickFile]
  else if key = "closewindow" then [AMCall.closeActiveWindow]
  else if key = "closeallwindows" then [AMCall.closeAllWindows]
  else if key = "options" then [AMCall.appOpenOptionsDialog]
  else if key = "about" then [AMCall.appOpenAboutDialog]
  else if key = "welcome" then [AMCall.appOpenWelcomeDialog]
  else if key = "clearrecents" then [AMCall.amClearRecentsList]
  else []

/-- The second `else if` chain of the two-argument `actionTriggered`
(lines 586–651), reached only past "the great filter" (a non-null window):
the window method selected by the key.  `"openwithother"` is tested before
the `"openwith"` prefix, as in the source. -/
def dispatchPhase2 (key : String) : List AMCall :=
  if strBeginsWith key "recent" then
    [AMCall.winOpenRecent (charDigitValue (key.data.getD (key.data.length - 1) (Char.ofNat 0)))]
  else if key = "openwithother" then [AMCall.winShowOpenWithDialog]
  else if strBeginsWith key "openwith" then [AMCall.winOpenWith]
  else if key = "openurl" then [AMCall.winPickUrl]
  else if key = "opencontainingfolder" then [AMCall.winOpenContainingFolder]
  else if key = "showfileinfo" then [AMCall.winShowFileInfo]
  else if key = "delete" then [AMCall.winAskDeleteFile]
  else if key = "undo" then [AMCall.winUndoDelete]
  else if key = "copy" then [AMCall.winCopy]
  else if key = "paste" then [AMCall.winPaste]
  else if key = "rename" then [AMCall.winRename]
  else if key = "zoomin" then [AMCall.winZoomIn]
  else if key = "zoomout" then [AMCall.winZoomOut]
  else if key = "resetzoom" then [AMCall.winResetZoom]
  else if key = "originalsize" then [AMCall.winOriginalSize]
  else if key = "rotateright" then [AMCall.winRotateRight]
  else if key = "rotateleft" then [AMCall.winRotateLeft]
  else if key = "mirror" then [AMCall.winMirror]
  else if key = "flip" then [AMCall.winFlip]
  else if key = "fullscreen" then [AMCall.winToggleFullScreen]
  else if key = "firstfile" then [AMCall.winFirstFile]
  else if key = "previousfile" then [AMCall.winPreviousFile]
  else if key = "nextfile" then [AMCall.winNextFile]
  else if key = "lastfile" then [AMCall.winLastFile]
  else if key = "saveframeas" then [AMCall.winSaveFrameAs]
  else if key = "pause" then [AMCall.winPause]
  else if key = "nextframe" then [AMCall.winNextFrame]
  else if key = "decreasespeed" then [AMCall.winDecreaseSpeed]
  else if key = "resetspeed" then [AMCall.winResetSpeed]
  else if key = "increasespeed" then [AMCall.winIncreaseSpeed]
  else if key = "slideshow" then [AMCall.winToggleSlideshow]
  else []

/-- The two-argument `ActionManager::actionTriggered` (lines 537–652): the
null-window-safe chain, then — past "the great filter" — the window-method
chain. -/
def actionTriggeredWithWindow (key : String) (windowPresent : Bool) : List AMCall :=
  dispatchPhase1 key windowPresent ++
    (if windowPresent then dispatchPhase2 key else [])

/-! ## Helper lemmas about the audit loops -/

theorem getD_eraseIdx_of_lt (l : List RecentFile) (i j : Nat)
    (hj : j < (l.eraseIdx i).length) (hij : j < i) :
    (l.eraseIdx i).getD j default = l.getD j default := by
  have hj2 : j < l.length := lt_of_lt_of_le hj (length_eraseIdx_le l i)
  rw [List.getD_eq_getElem _ _ hj, List.getD_eq_getElem _ _ hj2,
    List.getElem_eraseIdx, dif_pos hij]

theorem getD_eraseIdx_of_ge (l : List RecentFile) (i j : Nat) (hi : i < l.length)
    (hij : i ≤ j) (hj : j < (l.eraseIdx i).length) :
    (l.eraseIdx i).getD j default = l.getD (j + 1) default := by
  have hlen : (l.eraseIdx i).length = l.length - 1 := by
    rw [List.length_eraseIdx, if_pos hi]
  have hj1 : j + 1 < l.length := by omega
  rw [List.getD_eq_getElem _ _ hj, List.getD_eq_getElem _ _ hj1,
    List.getElem_eraseIdx, dif_neg (by omega)]

theorem nodup_getD_ne (l : List RecentFile) (hl : l.Nodup) (i j : Nat)
    (hi : i < l.length) (hj : j < l.length) (hij : i ≠ j) :
    l.getD i default ≠ l.getD j default := by
  rw [List.getD_eq_getElem _ _ hi, List.getD_eq_getElem _ _ hj]
  intro h
  exact hij ((List.Nodup.getElem_inj_iff hl).mp h)

theorem auditScan_nil (ex : String → Bool) (i : Nat) : auditScan ex [] i = [] := by
  rw [auditScan, dif_neg]
  simp

theorem trimToMaxLength_nil (maxLen : Nat) : trimToMaxLength maxLen [] = [] := by
  rw [trimToMaxLength, if_neg]
  simp

theorem auditRecentsList_nil (ex : String → Bool) (enabled : Bool) (maxLen : Nat) :
    auditRecentsList ex enabled maxLen [] = [] := by
  have h : (if enabled then ([] : List RecentFile) else []) = [] := by
    cases enabled <;> rfl
  rw [auditRecentsList, h, auditScan_nil, trimToMaxLength_nil]

theorem auditRecentsList_disabled (ex : String → Bool) (maxLen : Nat)
    (l : List RecentFile) : auditRecentsList ex false maxLen l = [] := by
  rw [auditRecentsList]
  have h : (if (false : Bool) = true then l else ([] : List RecentFile)) = [] := rfl
  rw [h, auditScan_nil, trimToMaxLength_nil]

theorem trimToMaxLength_eq_take (maxLen : Nat) (l : List RecentFile) :
    trimToMaxLength maxLen l = l.take maxLen := by
  induction l using trimToMaxLength.induct maxLen with
  | case1 l h ih =>
      rw [trimToMaxLength, if_pos h, ih, List.dropLast_eq_take, List.take_take]
      congr 1
      omega
  | case2 l h =>
      rw [trimToMaxLength, if_neg h, List.take_of_length_le (by omega)]

/-- If `recent` occurs at no position of `l` from `i2` on other than `i`,
the duplicate pass removes nothing. -/
theorem auditDedupPass_no_occ (r : RecentFile) (i : Nat) :
    ∀ (l : List RecentFile) (i2 : Nat),
    (∀ j, i2 ≤ j → j < l.length → j ≠ i → l.getD j default ≠ r) →
    auditDedupPass r i l i2 = l := by
  intro l i2
  induction l, i2 using auditDedupPass.induct r i with
  | case1 l h ih =>
      intro H
      rw [auditDedupPass, dif_pos h, if_pos rfl]
      exact ih fun j hj hjl hji => H j (by omega) hjl hji
  | case2 l i2 h1 h2 h3 ih =>
      intro H
      exact absurd h3.symm (H i2 le_rfl h1 fun he => h2 he.symm)
  | case3 l i2 h1 h2 h3 ih =>
      intro H
      rw [auditDedupPass, dif_pos h1, if_neg h2, if_neg h3]
      exact ih fun j hj hjl hji => H j (by omega) hjl hji
  | case4 l i2 h1 =>
      intro _
      rw [auditDedupPass, dif_neg h1]

/-- If `recent` occurs (from `i2` on) exactly at position `p ≠ 0` besides the
protected position `0`, the duplicate pass for position `0` removes exactly
the occurrence at `p`. -/
theorem auditDedupPass_single_occ (r : RecentFile) :
    ∀ (l : List RecentFile) (i2 : Nat), ∀ p : Nat, i2 ≤ p → p < l.length → p ≠ 0 →
    l.getD p default = r →
    (∀ j, i2 ≤ j → j < l.length → j ≠ 0 → j ≠ p → l.getD j default ≠ r) →
    auditDedupPass r 0 l i2 = l.eraseIdx p := by
  intro l i2
  induction l, i2 using auditDedupPass.induct r 0 with
  | case1 l h ih =>
      intro p hp0 hpl hp hgp H
      rw [auditDedupPass, dif_pos h, if_pos rfl]
      exact ih p (by omega) hpl hp hgp fun j hj hjl hj0 hjp => H j (by omega) hjl hj0 hjp
  | case2 l i2 h1 h2 h3 ih =>
      intro p hp0 hpl hp hgp H
      have hip : i2 = p := by
        by_contra hne
        exact H i2 le_rfl h1 (fun he => h2 he.symm) hne h3.symm
      subst hip
      rw [auditDedupPass, dif_pos h1, if_neg h2, if_pos h3]
      apply auditDedupPass_no_occ
      intro j hj hjl hj0
      have hij : i2 ≤ j := by omega
      rw [getD_eraseIdx_of_ge l i2 j h1 hij hjl]
      have hlen : (l.eraseIdx i2).length = l.length - 1 := by
        rw [List.length_eraseIdx, if_pos h1]
      exact H (j + 1) (by omega) (by omega) (by omega) (by omega)
  | case3 l i2 h1 h2 h3 ih =>
      intro p hp0 hpl hp hgp H
      have hip : i2 ≠ p := fun he => h3 (he ▸ hgp).symm
      rw [auditDedupPass, dif_pos h1, if_neg h2, if_neg h3]
      exact ih p (by omega) hpl hp hgp fun j hj hjl hj0 hjp => H j (by omega) hjl hj0 hjp
  | case4 l i2 h1 =>
      intro p hp0 hpl hp hgp H
      omega

/-- On a duplicate-free list the scan only performs existence removals, so it
preserves freedom from duplicates, and — once the counter has passed the
front — the head element. -/
theorem auditScan_nodup (ex : String → Bool) :
    ∀ (l : List RecentFile) (i : Nat), l.Nodup →
    (auditScan ex l i).Nodup ∧ (1 ≤ i → (auditScan ex l i).head? = l.head?) := by
  intro l i
  induction l, i using auditScan.induct ex with
  | case1 l i h ih =>
      intro hl
      have hstep1 : (auditExistsStep ex l i).Nodup := by
        rw [auditExistsStep]
        split
        · exact hl
        · exact (List.eraseIdx_sublist l i).nodup hl
      have hstep2 : auditDedupPass (l.getD i default) i (auditExistsStep ex l i) 0 =
          auditExistsStep ex l i := by
        apply auditDedupPass_no_occ
        intro j hj0 hjl hji
        rw [auditExistsStep] at hjl ⊢
        by_cases hex : ex (l.getD i default).filePath
        · rw [if_pos hex] at hjl ⊢
          exact nodup_getD_ne l hl j i hjl h hji
        · rw [if_neg hex] at hjl ⊢
          by_cases hlt : j < i
          · rw [getD_eraseIdx_of_lt l i j hjl hlt]
            exact nodup_getD_ne l hl j i
              (lt_of_lt_of_le hjl (length_eraseIdx_le l i)) h (by omega)
          · have hlen : (l.eraseIdx i).length = l.length - 1 := by
              rw [List.length_eraseIdx, if_pos h]
            rw [getD_eraseIdx_of_ge l i j h (by omega) hjl]
            exact nodup_getD_ne l hl (j + 1) i (by omega) h (by omega)
      have hhead : 1 ≤ i → (auditExistsStep ex l i).head? = l.head? := by
        intro hi1
        rw [auditExistsStep]
        split
        · rfl
        · cases l with
          | nil => simp at h
          | cons a t =>
              cases i with
              | zero => omega
              | succ n => rw [List.eraseIdx_cons_succ]; rfl
      rw [auditScan, dif_pos h, hstep2]
      rw [hstep2] at ih
      obtain ⟨hn, hh⟩ := ih hstep1
      exact ⟨hn, fun hi1 => (hh (by omega)).trans (hhead hi1)⟩
  | case2 l i h =>
      intro hl
      rw [auditScan, dif_neg h]
      exact ⟨hl, fun _ => rfl⟩

/-- Prepending a file with an existing path to a duplicate-free list and
running the scan keeps the file at the front, keeps the list duplicate-free,
and does not grow the list when the file was already present. -/
theorem auditScan_prepend (ex : String → Bool) (f : RecentFile) (l : List RecentFile)
    (hex : ex f.filePath = true) (hl : l.Nodup) :
    (auditScan ex (f :: l) 0).head? = some f ∧
    (auditScan ex (f :: l) 0).Nodup ∧
    (f ∈ l → (auditScan ex (f :: l) 0).length ≤ l.length) ∧
    (auditScan ex (f :: l) 0).length ≤ l.length + 1 := by
  have hget0 : (f :: l).getD 0 default = f := rfl
  have hstep : auditExistsStep ex (f :: l) 0 = f :: l := by
    rw [auditExistsStep, hget0, if_pos hex]
  by_cases hf : f ∈ l
  · obtain ⟨q, hq, hlq⟩ := List.mem_iff_getElem.mp hf
    have hgq : l.getD q default = f := by rw [List.getD_eq_getElem _ _ hq]; exact hlq
    have huniq : ∀ j, j < l.length → j ≠ q → l.getD j default ≠ f := by
      intro j hjl hjq
      rw [← hgq]
      exact nodup_getD_ne l hl j q hjl hq hjq
    have hded : auditDedupPass f 0 (f :: l) 0 = (f :: l).eraseIdx (q + 1) := by
      apply auditDedupPass_single_occ f (f :: l) 0 (q + 1) (by omega)
        (by simp only [List.length_cons]; omega) (by omega)
      · exact hgq
      · intro j hj0 hjl hj hjq
        cases j with
        | zero => exact absurd rfl hj
        | succ n =>
            have hn : n < l.length := by
              simp only [List.length_cons] at hjl
              omega
            exact huniq n hn (by omega)
    have hnm : (f :: l.eraseIdx q).Nodup := by
      refine List.nodup_cons.mpr ⟨?_, (List.eraseIdx_sublist l q).nodup hl⟩
      intro hmem
      obtain ⟨j, hj, hje⟩ := List.mem_iff_getElem.mp hmem
      have hje2 : (l.eraseIdx q).getD j default = f := by
        rw [List.getD_eq_getElem _ _ hj]; exact hje
      by_cases hlt : j < q
      · rw [getD_eraseIdx_of_lt l q j hj hlt] at hje2
        exact huniq j (lt_of_lt_of_le hj (length_eraseIdx_le l q)) (by omega) hje2
      · have hlen : (l.eraseIdx q).length = l.length - 1 := by
          rw [List.length_eraseIdx, if_pos hq]
        rw [getD_eraseIdx_of_ge l q j hq (by omega) hj] at hje2
        exact huniq (j + 1) (by omega) (by omega) hje2
    rw [auditScan, dif_pos (show 0 < (f :: l).length by simp), hget0, hstep, hded,
      List.eraseIdx_cons_succ]
    simp only [Nat.zero_add]
    obtain ⟨hn, hh⟩ := auditScan_nodup ex (f :: l.eraseIdx q) 1 hnm
    have hlen2 : (f :: l.eraseIdx q).length = l.length := by
      simp only [List.length_cons, List.length_eraseIdx, if_pos hq]
      omega
    have hsl := auditScan_length_le ex (f :: l.eraseIdx q) 1
    exact ⟨(hh (by omega)).trans rfl, hn, fun _ => by omega, by omega⟩
  · have hm : (f :: l).Nodup := List.nodup_cons.mpr ⟨hf, hl⟩
    have hded : auditDedupPass f 0 (f :: l) 0 = f :: l := by
      apply auditDedupPass_no_occ
      intro j hj0 hjl hj
      cases j with
      | zero => exact absurd rfl hj
      | succ n =>
          have hn : n < l.length := by
            simp only [List.length_cons] at hjl
            omega
          show l.getD n default ≠ f
          intro he
          apply hf
          rw [← he, List.getD_eq_getElem _ _ hn]
          exact List.getElem_mem hn
    rw [auditScan, dif_pos (show 0 < (f :: l).length by simp), hget0, hstep, hded]
    simp only [Nat.zero_add]
    obtain ⟨hn, hh⟩ := auditScan_nodup ex (f :: l) 1 hm
    have hsl := auditScan_length_le ex (f :: l) 1
    refine ⟨(hh (by omega)).trans rfl, hn, fun hmem => absurd hmem hf, ?_⟩
    simp only [List.length_cons] at hsl
    omega

/-- `addFileToRecentsList` at the list level: prepend then audit, for a
duplicate-free current list and a file whose path exists. -/
theorem auditRecentsList_prepend (ex : String → Bool) (f : RecentFile)
    (l : List RecentFile) (maxLen : Nat) (hex : ex f.filePath = true)
    (hl : l.Nodup) (hmax : 1 ≤ maxLen) :
    (auditRecentsList ex true maxLen (f :: l)).head? = some f ∧
    (f ∈ l → (auditRecentsList ex true maxLen (f :: l)).length ≤ l.length) := by
  obtain ⟨hhead, _, hmem, _⟩ := auditScan_prepend ex f l hex hl
  have hunf : auditRecentsList ex true maxLen (f :: l) =
      (auditScan ex (f :: l) 0).take maxLen := by
    rw [auditRecentsList, trimToMaxLength_eq_take]
    simp
  constructor
  · rw [hunf, List.head?_take, if_neg (by omega), hhead]
  · intro hmemf
    rw [hunf]
    have := List.length_take maxLen (auditScan ex (f :: l) 0)
    have := hmem hmemf
    omega

theorem windowlessLoopHits_iff (keys : List String) (key : String) :
    windowlessLoopHits keys key = true ↔ key ∈ keys := by
  induction keys with
  | nil => simp [windowlessLoopHits]
  | cons k rest ih =>
      rw [windowlessLoopHits]
      by_cases h : key = k
      · simp [h]
      · simp only [if_neg h, List.mem_cons, ih]
        exact ⟨Or.inr, fun hm => hm.elim (fun he => absurd he h) id⟩

/-! ## Concrete data used by witnesses and counterexamples -/

/-- A trivial icon lookup for concrete runs. -/
def iconId : String → String := fun _ => ""

def missingOne : RecentFile := ⟨"one", "/missing/one"⟩

def missingTwo : RecentFile := ⟨"two", "/missing/two"⟩

def fileA : RecentFile := ⟨"a", "/pics/a.png"⟩

def fileB : RecentFile := ⟨"b", "/pics/b.png"⟩

def fileC : RecentFile := ⟨"c", "/pics/c.png"⟩

/-- An existence predicate under which only `fileA` exists. -/
def existsAOnly : String → Bool := fun p => p == "/pics/a.png"

/-- An existence predicate under which `fileA` and `fileB` exist but
`fileC` does not. -/
def existsAB : String → Bool := fun p => p == "/pics/a.png" || p == "/pics/b.png"

/-- An existence predicate under which every path exists. -/
def existsAll : String → Bool := fun _ => true

/-- A state reachable right after `auditRecentsList` of
`[fileA, fileB, fileC, fileB, fileB]` under `existsAB` (see the
counterexample below): its list holds a duplicate. -/
def dupState : ActionManagerState :=
  { recentsList := [fileA, fileB, fileB]
    isSaveRecentsEnabled := true
    recentsListMaxLength := 10
    timerActive := false
    storedRecentFiles := []
    recentSlots := []
    recentsMenuVisible := true
    menuUpdateCount := 0 }

/-- A duplicate-free one-entry state. -/
def cleanState : ActionManagerState :=
  { recentsList := [fileB]
    isSaveRecentsEnabled := true
    recentsListMaxLength := 10
    timerActive := false
    storedRecentFiles := []
    recentSlots := []
    recentsMenuVisible := true
    menuUpdateCount := 0 }

/-- A state with saving disabled and a stale entry. -/
def disabledState : ActionManagerState :=
  { recentsList := [fileA]
    isSaveRecentsEnabled := false
    recentsListMaxLength := 10
    timerActive := false
    storedRecentFiles := [fileA]
    recentSlots := []
    recentsMenuVisible := true
    menuUpdateCount := 0 }

/-- A state with one recents entry and three slot-action clones (two clones
for slot 0, one for slot 1). -/
def menuState : ActionManagerState :=
  { recentsList := [fileA]
    isSaveRecentsEnabled := true
    recentsListMaxLength := 10
    timerActive := false
    storedRecentFiles := []
    recentSlots := [(0, ⟨false, "Empty", ""⟩), (1, ⟨true, "stale", "/old"⟩),
      (0, ⟨true, "stale2", "/old2"⟩)]
    recentsMenuVisible := true
    menuUpdateCount := 0 }

/-! ## Claim theorems -/

/-- C1 (code bug): the existence filter of `auditRecentsList` is defeated by
its own index handling. On the list `[missingOne, missingTwo]`, where no path
exists, the audit removes `missingOne` at index 0, skips the entry that
shifted into index 0, and returns `[missingTwo]` — an entry whose `filePath`
does not exist remains after `auditRecentsList`, contradicting the property
(and the source comment "Ensure each file exists"). -/
theorem auditRecentsList_existence_code_bug :
    auditRecentsList (fun _ => false) true 10 [missingOne, missingTwo] = [missingTwo] ∧
    (fun _ => false) missingTwo.filePath = false := by
  constructor
  · simp [auditRecentsList, auditScan, auditDedupPass, auditExistsStep, trimToMaxLength,
      missingOne, missingTwo, List.getD]
  · rfl

/-- C2 (code bug): the duplicate filter of `auditRecentsList` can leave two
equal entries at distinct positions. On `[fileA, fileB, fileA, fileA]` under
`existsAOnly` (only `fileA`'s path exists), the pass for index 0 removes the
copy at index 2 but skips the copy that shifted into index 2; the removal of
`fileB` then shifts that copy out of reach of any later pass, and the audit
returns `[fileA, fileA]` — contradicting the property (and the source
comment "Check for duplicates"). -/
theorem auditRecentsList_dedup_code_bug :
    auditRecentsList existsAOnly true 10 [fileA, fileB, fileA, fileA] = [fileA, fileA] ∧
    ¬ (auditRecentsList existsAOnly true 10 [fileA, fileB, fileA, fileA]).Nodup := by
  have h : auditRecentsList existsAOnly true 10 [fileA, fileB, fileA, fileA] =
      [fileA, fileA] := by
    simp [auditRecentsList, auditScan, auditDedupPass, auditExistsStep, trimToMaxLength,
      existsAOnly, fileA, fileB, List.getD]
  refine ⟨h, ?_⟩
  rw [h]
  simp

/-- C3: after `auditRecentsList` the list length is at most
`recentsListMaxLength` (= 10 from the constructor); the trailing `while`
loop evicts the excess from the tail, i.e. the audited list is the prefix of
length `maxLen` of the scanned list. -/
theorem auditRecentsList_bounded (ex : String → Bool) (enabled : Bool) (maxLen : Nat)
    (l : List RecentFile) :
    (auditRecentsList ex enabled maxLen l).length ≤ maxLen ∧
    auditRecentsList ex enabled maxLen l =
      (auditScan ex (if enabled then l else []) 0).take maxLen ∧
    initialRecentsListMaxLength = 10 := by
  refine ⟨?_, ?_, rfl⟩
  · rw [auditRecentsList, trimToMaxLength_eq_take]
    have := List.length_take maxLen (auditScan ex (if enabled then l else []) 0)
    omega
  · rw [auditRecentsList, trimToMaxLength_eq_take]

/-- C4 (amended): for a file whose path exists, with recents saving enabled
and the current `recentsList` free of duplicate entries,
`addFileToRecentsList` places the (fileName, filePath) entry at the front of
`recentsList`, and if an equal entry was already present the length does not
increase. -/
theorem addFileToRecentsList_front (ex : String → Bool) (iconFor : String → String)
    (f : RecentFile) (s : ActionManagerState)
    (hen : s.isSaveRecentsEnabled = true) (hex : ex f.filePath = true)
    (hnd : s.recentsList.Nodup) (hmax : 1 ≤ s.recentsListMaxLength) :
    (s.addFileToRecentsList ex iconFor f).recentsList.head? = some f ∧
    (f ∈ s.recentsList →
        (s.addFileToRecentsList ex iconFor f).recentsList.length ≤
          s.recentsList.length) := by
  have hres : (s.addFileToRecentsList ex iconFor f).recentsList =
      auditRecentsList ex true s.recentsListMaxLength (f :: s.recentsList) := by
    simp [ActionManagerState.addFileToRecentsList, ActionManagerState.audit,
      ActionManagerState.updateMenu, hen]
  rw [hres]
  exact auditRecentsList_prepend ex f s.recentsList s.recentsListMaxLength hex hnd hmax

/-- C4 witness: adding `fileA` to the duplicate-free state `cleanState`
(list `[fileB]`, everything exists) puts `fileA` in front. -/
theorem addFileToRecentsList_front_witness :
    (cleanState.addFileToRecentsList existsAll iconId fileA).recentsList.head? =
      some fileA ∧
    (fileA ∈ cleanState.recentsList →
        (cleanState.addFileToRecentsList existsAll iconId fileA).recentsList.length ≤
          cleanState.recentsList.length) :=
  addFileToRecentsList_front existsAll iconId fileA cleanState rfl rfl
    (by simp [cleanState]) (by decide)

/-- C4 counterexample: the claim fails as stated. The state `dupState` with
list `[fileA, fileB, fileB]` is reachable (it is itself an audit output
under `existsAB`), every path involved exists and saving is enabled, yet
`addFileToRecentsList fileB` returns the list `[fileA]`: the added entry is
not at index 0 — the audit's duplicate pass removed every copy of `fileB`,
including the fresh one. -/
theorem addFileToRecentsList_front_counterexample :
    existsAB fileB.filePath = true ∧
    dupState.isSaveRecentsEnabled = true ∧
    dupState.recentsList =
      auditRecentsList existsAB true 10 [fileA, fileB, fileC, fileB, fileB] ∧
    (dupState.addFileToRecentsList existsAB iconId fileB).recentsList = [fileA] ∧
    (dupState.addFileToRecentsList existsAB iconId fileB).recentsList.head? ≠
      some fileB := by
  have h1 : auditRecentsList existsAB true 10 [fileA, fileB, fileC, fileB, fileB] =
      [fileA, fileB, fileB] := by
    simp [auditRecentsList, auditScan, auditDedupPass, auditExistsStep, trimToMaxLength,
      existsAB, fileA, fileB, fileC, List.getD]
  have h2 : (dupState.addFileToRecentsList existsAB iconId fileB).recentsList =
      [fileA] := by
    simp [ActionManagerState.addFileToRecentsList, ActionManagerState.audit,
      ActionManagerState.updateMenu, dupState, auditRecentsList, auditScan,
      auditDedupPass, auditExistsStep, trimToMaxLength, existsAB, fileA, fileB,
      List.getD]
  refine ⟨rfl, rfl, ?_, h2, ?_⟩
  · rw [h1]; rfl
  · rw [h2]
    simp [fileA, fileB]

/-- C5: `addFileToRecentsList` never touches the settings store — the stored
`"recentFiles"` value is unchanged by the call — and leaves the single-shot
500 ms save timer running; the store is written by `saveRecentsList`, which
persists the (audited) current list, in particular when the timer fires. -/
theorem addFileToRecentsList_debounce (ex : String → Bool) (iconFor : String → String)
    (f : RecentFile) (s : ActionManagerState) :
    (s.addFileToRecentsList ex iconFor f).storedRecentFiles = s.storedRecentFiles ∧
    (s.addFileToRecentsList ex iconFor f).timerActive = true ∧
    recentsSaveTimerIntervalMs = 500 ∧
    recentsSaveTimerSingleShot = true ∧
    (∀ s2 : ActionManagerState,
        (ActionManagerState.saveRecentsList ex iconFor s2).storedRecentFiles =
          (ActionManagerState.saveRecentsList ex iconFor s2).recentsList) ∧
    (∀ s2 : ActionManagerState,
        (ActionManagerState.saveTimerFired ex iconFor s2).storedRecentFiles =
          auditRecentsList ex s2.isSaveRecentsEnabled s2.recentsListMaxLength
            s2.recentsList) := by
  refine ⟨?_, ?_, rfl, rfl, ?_, ?_⟩
  · simp [ActionManagerState.addFileToRecentsList, ActionManagerState.audit,
      ActionManagerState.updateMenu]
  · simp [ActionManagerState.addFileToRecentsList, ActionManagerState.audit,
      ActionManagerState.updateMenu]
  · intro s2
    simp [ActionManagerState.saveRecentsList, ActionManagerState.audit,
      ActionManagerState.updateMenu]
  · intro s2
    simp [ActionManagerState.saveTimerFired, ActionManagerState.saveRecentsList,
      ActionManagerState.audit, ActionManagerState.updateMenu]

/-- C6: for a key present in the action library, `cloneAction` returns a
fresh action agreeing with the canonical one on icon, data, text, menu role,
enabled state, shortcuts and visibility (other fields keep their `QAction()`
defaults), and records it in the clone library under the key; for an absent
key it returns a null pointer and changes nothing. -/
theorem cloneAction_spec (lib clones : List (String × QVAction)) (key : String) :
    (∀ a : QVAction, getAction lib key = some a →
        cloneAction lib clones key =
          (some (freshActionCopy a), (key, freshActionCopy a) :: clones) ∧
        (freshActionCopy a).icon = a.icon ∧
        (freshActionCopy a).dataList = a.dataList ∧
        (freshActionCopy a).text = a.text ∧
        (freshActionCopy a).menuRole = a.menuRole ∧
        (freshActionCopy a).enabled = a.enabled ∧
        (freshActionCopy a).shortcuts = a.shortcuts ∧
        (freshActionCopy a).visible = a.visible ∧
        (freshActionCopy a).checkable = false ∧
        (freshActionCopy a).checked = false) ∧
    (getAction lib key = none → cloneAction lib clones key = (none, clones)) := by
  constructor
  · intro a ha
    simp [cloneAction, ha, freshActionCopy]
  · intro ha
    simp [cloneAction, ha]

/-- C6 sample library entry. -/
def quitActionW : QVAction :=
  { icon := "application-exit"
    dataList := ["quit"]
    text := "&Quit"
    menuRole := 0
    enabled := true
    shortcuts := ["Ctrl+Q"]
    visible := true }

/-- C6 witness: cloning `"quit"` from a one-entry library copies the action
and records the clone; cloning an unknown key returns null. -/
theorem cloneAction_spec_witness :
    cloneAction [("quit", quitActionW)] [] "quit" =
      (some (freshActionCopy quitActionW), [("quit", freshActionCopy quitActionW)]) ∧
    cloneAction [("quit", quitActionW)] [] "nokey" = (none, []) :=
  ⟨((cloneAction_spec [("quit", quitActionW)] [] "quit").1 quitActionW rfl).1,
   (cloneAction_spec [("quit", quitActionW)] [] "nokey").2 rfl⟩

/-- C7: the one-argument `actionTriggered` takes the null-window path exactly
for the keys of `windowlessActions` (the four base keys, plus about, welcome
and options on macOS); any other key requests a main window from the
application, requiring a window with no image open exactly when the key
starts with `"recent"` or is `"openurl"`; and in the two-argument overload
each key selects the corresponding window method call. -/
theorem actionTriggered_dispatch_spec :
    (∀ (macOS : Bool) (key : String),
        (actionTriggeredDispatch macOS key = DispatchDecision.withNullWindow ↔
          key ∈ windowlessActions macOS) ∧
        (key ∉ windowlessActions macOS →
          actionTriggeredDispatch macOS key =
            DispatchDecision.requestWindow
              (strBeginsWith key "recent" || key == "openurl"))) ∧
    windowlessActions false = ["newwindow", "quit", "clearrecents", "open"] ∧
    windowlessActions true =
      ["newwindow", "quit", "clearrecents", "open", "about", "welcome", "options"] ∧
    (∀ i : Fin 10,
        actionTriggeredWithWindow ("recent" ++ toString (i : Nat)) true =
          [AMCall.winOpenRecent ((i : Nat) : Int)] ∧
        actionTriggeredWithWindow ("openwith" ++ toString (i : Nat)) true =
          [AMCall.winOpenWith]) ∧
    (actionTriggeredWithWindow "quit" true = [AMCall.winClose, AMCall.appQuit] ∧
      actionTriggeredWithWindow "quit" false = [AMCall.appQuit] ∧
      actionTriggeredWithWindow "newwindow" false = [AMCall.appNewWindow] ∧
      actionTriggeredWithWindow "open" false = [AMCall.appPickFile] ∧
      actionTriggeredWithWindow "clearrecents" false = [AMCall.amClearRecentsList] ∧
      actionTriggeredWithWindow "closewindow" true = [AMCall.closeActiveWindow] ∧
      actionTriggeredWithWindow "closeallwindows" true = [AMCall.closeAllWindows] ∧
      actionTriggeredWithWindow "options" true = [AMCall.appOpenOptionsDialog] ∧
      actionTriggeredWithWindow "about" true = [AMCall.appOpenAboutDialog] ∧
      actionTriggeredWithWindow "welcome" true = [AMCall.appOpenWelcomeDialog]) ∧
    (actionTriggeredWithWindow "openwithother" true = [AMCall.winShowOpenWithDialog] ∧
      actionTriggeredWithWindow "openurl" true = [AMCall.winPickUrl] ∧
      actionTriggeredWithWindow "opencontainingfolder" true =
        [AMCall.winOpenContainingFolder] ∧
      actionTriggeredWithWindow "showfileinfo" true = [AMCall.winShowFileInfo] ∧
      actionTriggeredWithWindow "delete" true = [AMCall.winAskDeleteFile] ∧
      actionTriggeredWithWindow "undo" true = [AMCall.winUndoDelete] ∧
      actionTriggeredWithWindow "copy" true = [AMCall.winCopy] ∧
      actionTriggeredWithWindow "paste" true = [AMCall.winPaste] ∧
      actionTriggeredWithWindow "rename" true = [AMCall.winRename] ∧
      actionTriggeredWithWindow "zoomin" true = [AMCall.winZoomIn] ∧
      actionTriggeredWithWindow "zoomout" true = [AMCall.winZoomOut] ∧
      actionTriggeredWithWindow "resetzoom" true = [AMCall.winResetZoom] ∧
      actionTriggeredWithWindow "originalsize" true = [AMCall.winOriginalSize] ∧
      actionTriggeredWithWindow "rotateright" true = [AMCall.winRotateRight] ∧
      actionTriggeredWithWindow "rotateleft" true = [AMCall.winRotateLeft] ∧
      actionTriggeredWithWindow "mirror" true = [AMCall.winMirror] ∧
      actionTriggeredWithWindow "flip" true = [AMCall.winFlip] ∧
      actionTriggeredWithWindow "fullscreen" true = [AMCall.winToggleFullScreen] ∧
      actionTriggeredWithWindow "firstfile" true = [AMCall.winFirstFile] ∧
      actionTriggeredWithWindow "previousfile" true = [AMCall.winPreviousFile] ∧
      actionTriggeredWithWindow "nextfile" true = [AMCall.winNextFile] ∧
      actionTriggeredWithWindow "lastfile" true = [AMCall.winLastFile] ∧
      actionTriggeredWithWindow "saveframeas" true = [AMCall.winSaveFrameAs] ∧
      actionTriggeredWithWindow "pause" true = [AMCall.winPause] ∧
      actionTriggeredWithWindow "nextframe" true = [AMCall.winNextFrame] ∧
      actionTriggeredWithWindow "decreasespeed" true = [AMCall.winDecreaseSpeed] ∧
      actionTriggeredWithWindow "resetspeed" true = [AMCall.winResetSpeed] ∧
      actionTriggeredWithWindow "increasespeed" true = [AMCall.winIncreaseSpeed] ∧
      actionTriggeredWithWindow "slideshow" true = [AMCall.winToggleSlideshow]) := by
  refine ⟨?_, rfl, rfl, by decide, by decide, by decide⟩
  intro macOS key
  constructor
  · rw [actionTriggeredDispatch]
    by_cases h : windowlessLoopHits (windowlessActions macOS) key = true
    · rw [if_pos h]
      exact ⟨fun _ => (windowlessLoopHits_iff _ _).mp h, fun _ => rfl⟩
    · rw [if_neg h]
      constructor
      · intro he
        exact absurd he (by simp)
      · intro hmem
        exact absurd ((windowlessLoopHits_iff _ _).mpr hmem) h
  · intro hnot
    rw [actionTriggeredDispatch,
      if_neg fun h => hnot ((windowlessLoopHits_iff _ _).mp h)]

/-- C7 witness: concrete dispatch decisions obtained from the theorem — a
window-bound key, a recent-slot key needing an empty window, and a
macOS-only windowless key. -/
theorem actionTriggered_dispatch_spec_witness :
    actionTriggeredDispatch false "zoomin" = DispatchDecision.requestWindow false ∧
    actionTriggeredDispatch false "recent3" = DispatchDecision.requestWindow true ∧
    actionTriggeredDispatch true "options" = DispatchDecision.withNullWindow := by
  refine ⟨?_, ?_, ?_⟩
  · exact ((actionTriggered_dispatch_spec.1 false "zoomin").2 (by decide)).trans (by decide)
  · exact ((actionTriggered_dispatch_spec.1 false "recent3").2 (by decide)).trans (by decide)
  · exact (actionTriggered_dispatch_spec.1 true "options").1.mpr (by decide)

/-- C8: `updateRecentsMenu` makes every clone of a slot action of index
below `min (length, recentsListMaxLength)` visible with the corresponding
entry's file name as text, makes every later slot invisible with text
"Empty", and then emits `recentsMenuUpdated`. -/
theorem updateRecentsMenu_spec (iconFor : String → String) (s : ActionManagerState)
    (hwf : ∀ p ∈ s.recentSlots, p.1 < s.recentsListMaxLength) :
    (∀ p ∈ (s.updateMenu iconFor).recentSlots,
        (p.1 < min s.recentsList.length s.recentsListMaxLength →
            p.2.visible = true ∧ p.2.text = (s.recentsList.getD p.1 default).fileName) ∧
        (min s.recentsList.length s.recentsListMaxLength ≤ p.1 →
            p.2.visible = false ∧ p.2.text = "Empty")) ∧
    (s.updateMenu iconFor).menuUpdateCount = s.menuUpdateCount + 1 := by
  constructor
  · intro p hp
    simp only [ActionManagerState.updateMenu, updateRecentsMenu, List.mem_map] at hp
    obtain ⟨q, hq, hpe⟩ := hp
    have hqlt := hwf q hq
    rw [if_pos hqlt] at hpe
    subst hpe
    dsimp only
    constructor
    · intro hlt
      have hlen : q.1 < s.recentsList.length := by omega
      rw [updateRecentsSlot, if_pos hlen]
      exact ⟨rfl, rfl⟩
    · intro hge
      have hlen : ¬ q.1 < s.recentsList.length := by omega
      rw [updateRecentsSlot, if_neg hlen]
      exact ⟨rfl, rfl⟩
  · rfl

/-- C8 witness: on `menuState` (one entry, clones for slots 0 and 1) the
update shows both clones of slot 0 with the entry's name, hides slot 1 with
text "Empty", and bumps the emission counter. -/
theorem updateRecentsMenu_spec_witness :
    (∀ p ∈ (menuState.updateMenu iconId).recentSlots,
        (p.1 < min menuState.recentsList.length menuState.recentsListMaxLength →
            p.2.visible = true ∧
            p.2.text = (menuState.recentsList.getD p.1 default).fileName) ∧
        (min menuState.recentsList.length menuState.recentsListMaxLength ≤ p.1 →
            p.2.visible = false ∧ p.2.text = "Empty")) ∧
    (menuState.updateMenu iconId).menuUpdateCount = menuState.menuUpdateCount + 1 :=
  updateRecentsMenu_spec iconId menuState (by decide)

/-- C9: while `"saverecents"` is disabled every audit clears the list — so
the recents list is empty after every mutation — and `settingsUpdated`
additionally persists the cleared list through `clearRecentsList`. -/
theorem saveRecentsDisabled_clears (ex : String → Bool) (iconFor : String → String) :
    (∀ (maxLen : Nat) (l : List RecentFile), auditRecentsList ex false maxLen l = []) ∧
    (∀ s : ActionManagerState, s.isSaveRecentsEnabled = false →
        (s.audit ex iconFor).recentsList = []) ∧
    (∀ s : ActionManagerState,
        (s.settingsUpdated ex iconFor false).recentsList = [] ∧
        (s.settingsUpdated ex iconFor false).storedRecentFiles = [] ∧
        (s.settingsUpdated ex iconFor false).isSaveRecentsEnabled = false) := by
  refine ⟨fun maxLen l => auditRecentsList_disabled ex maxLen l, ?_, ?_⟩
  · intro s hs
    simp [ActionManagerState.audit, ActionManagerState.updateMenu, hs,
      auditRecentsList_disabled]
  · intro s
    simp [ActionManagerState.settingsUpdated, ActionManagerState.clearRecentsList,
      ActionManagerState.saveRecentsList, ActionManagerState.audit,
      ActionManagerState.updateMenu, auditRecentsList_disabled]

/-- C9 witness: auditing `disabledState` (saving disabled, one entry whose
path even exists) empties the list. -/
theorem saveRecentsDisabled_clears_witness :
    (disabledState.audit existsAll iconId).recentsList = [] :=
  (saveRecentsDisabled_clears existsAll iconId).2.1 disabledState rfl

/-- C10: `clearRecentsList` empties `recentsList` and writes the emptied
list to the settings store within the call, leaving the debounce timer as it
was — in contrast to `addFileToRecentsList`, which leaves the store
untouched and only arms the timer. -/
theorem clearRecentsList_immediate (ex : String → Bool) (iconFor : String → String)
    (s : ActionManagerState) :
    (s.clearRecentsList ex iconFor).recentsList = [] ∧
    (s.clearRecentsList ex iconFor).storedRecentFiles = [] ∧
    (s.clearRecentsList ex iconFor).timerActive = s.timerActive ∧
    (∀ f : RecentFile,
        (s.addFileToRecentsList ex iconFor f).storedRecentFiles =
          s.storedRecentFiles ∧
        (s.addFileToRecentsList ex iconFor f).timerActive = true) := by
  refine ⟨?_, ?_, ?_, fun f => ⟨?_, ?_⟩⟩ <;>
    simp [ActionManagerState.clearRecentsList, ActionManagerState.saveRecentsList,
      ActionManagerState.audit, ActionManagerState.updateMenu,
      ActionManagerState.addFileToRecentsList, auditRecentsList_nil]

end QView
